import Mathlib

/-!
Verification development for the fin_sight_server article-enrichment pipeline.

The Lean definitions below are a shallow embedding of the Python sources:
  - `app/core/collectors.py`  (image filter, newspaper3k crawler)
  - `app/core/services.py`    (ingestion, status updates, enrichment persistence,
                               contextual statistics windows)
  - `app/core/processors.py`  (LLM analysis)
  - `scripts/pipeline.py`     (the per-article processing loop)
  - `app/models/*`            (table shapes; `articles.url` carries a UNIQUE constraint)

External effects (date parsing by dateutil, HTML sanitisation by BeautifulSoup,
network fetches, the LLM call, image-header probes) are modelled as explicit
function parameters or outcome values supplied to the embedded code.
Machine reals (the SQL Float `observations.value` column) are carried opaquely:
no claim computes with the value payload, so it is modelled by `Int`.
-/

namespace FinSight

/-! ## String helpers mirroring the Python primitives -/

/-- Model of Python `str.strip()` on a character list: drop whitespace from
both ends. -/
def stripChars (l : List Char) : List Char :=
  ((l.dropWhile Char.isWhitespace).reverse.dropWhile Char.isWhitespace).reverse

/-- Model of Python `str.strip()`. -/
def pyStrip (s : String) : String :=
  ⟨stripChars s.data⟩

/-- Length of a string as Python `len` (number of code points). -/
def pyLen (s : String) : Nat := s.data.length

/-- Model of Python `needle in hay` substring containment on char lists. -/
def containsSub : List Char → List Char → Bool
  | [], needle => needle.isEmpty
  | h :: t, needle => needle.isPrefixOf (h :: t) || containsSub t needle

/-- Model of Python `sub in s` for strings. -/
def pyContains (s sub : String) : Bool :=
  containsSub s.data sub.data

/-- Model of Python `str.lower()` (ASCII case folding suffices for the
inputs the filter sees). -/
def pyLower (s : String) : String :=
  ⟨s.data.map Char.toLower⟩

/-- Model of Python `str.endswith(suffix)`. -/
def pyEndsWith (s suffix : String) : Bool :=
  suffix.data.isSuffixOf s.data

/-- Model of Python `str.startswith(prefix)`. -/
def pyStartsWith (s pre : String) : Bool :=
  pre.data.isPrefixOf s.data

/-- Model of Python `s.split(sep)[0]` for a one-character separator:
everything before the first occurrence of the separator. -/
def splitHead (s : String) (sep : Char) : String :=
  ⟨s.data.takeWhile (fun c => !(c == sep))⟩

/-- Numeric value of a run of decimal digits (`int(...)` on a `\d+` group). -/
def digitsToNat (l : List Char) : Nat :=
  l.foldl (fun n c => n * 10 + (c.toNat - 48)) 0

/-- Model of `re.search(r'(\d+)x(\d+)', s)`: scan left to right; at the first
position where a maximal digit run is followed by the letter x and at least
one digit, return the two greedily-matched groups. -/
def findSizeMatch : List Char → Option (Nat × Nat)
  | [] => none
  | c :: rest =>
    if c.isDigit then
      let run := (c :: rest).takeWhile Char.isDigit
      let after := (c :: rest).dropWhile Char.isDigit
      match after with
      | x :: rest2 =>
        if x == 'x' && !(rest2.takeWhile Char.isDigit).isEmpty then
          some (digitsToNat run, digitsToNat (rest2.takeWhile Char.isDigit))
        else
          findSizeMatch rest
      | [] => findSizeMatch rest
    else
      findSizeMatch rest

/-! ## `app/core/collectors.py`: the image-relevance filter -/

/-- `collectors._is_valid_content_image` keyword list 1 (advertising). -/
def ad_keywords : List String :=
  ["banner", "ad", "ads", "adv", "advertisement", "promo", "promotion",
   "광고", "popup", "overlay", "sidebar", "footer", "header",
   "logo", "icon", "favicon", "profile", "avatar", "thumbnail_small",
   "toplogo", "printlogo", "downlogo", "lightbulb", "smiley",
   "editor/images", "ndsoft.gif"]

/-- `collectors._is_valid_content_image` keyword list 2 (small-size tokens). -/
def size_filters : List String :=
  ["small", "mini", "tiny", "thumb", "50x50", "100x100", "150x150",
   "16x16", "32x32", "64x64", "icon"]

/-- Recognised image file extensions. -/
def valid_extensions : List String :=
  [".jpg", ".jpeg", ".png", ".gif", ".webp", ".bmp"]

/-- Known ad/tracker domain fragments. -/
def ad_domains : List String :=
  ["googleads", "doubleclick", "googlesyndication", "adsystem",
   "facebook.com/tr", "google-analytics", "gtag", "pixel"]

/-- `collectors._is_valid_content_image(image_url)`: pure predicate deciding
whether an image URL is article-content relevant. -/
def is_valid_content_image (image_url : String) : Bool :=
  if image_url == "" then false
  else
    let url_lower := pyLower image_url
    if ad_keywords.any (fun kw => pyContains url_lower kw) then false
    else if size_filters.any (fun kw => pyContains url_lower kw) then false
    else
      -- extension test runs on the original URL with query params removed
      let url_without_params := splitHead image_url (Char.ofNat 63)
      if !(valid_extensions.any (fun ext => pyEndsWith url_without_params ext)) then
        false
      else
        -- step 4: an embedded WIDTHxHEIGHT token with either dimension < 150 rejects
        let sizeReject :=
          match findSizeMatch url_lower.data with
          | some (width, height) => width < 150 || height < 150
          | none => false
        if sizeReject then false
        -- step 5: known ad/tracker domain fragments reject
        else if ad_domains.any (fun d => pyContains url_lower d) then false
        else true

/-! ## Dates and `dateutil.relativedelta` subtraction -/

/-- Calendar date (`datetime.date`). -/
structure Date where
  year : Nat
  month : Nat
  day : Nat
deriving DecidableEq, Repr

/-- Gregorian leap-year test. -/
def isLeap (y : Nat) : Bool :=
  y % 4 == 0 && (y % 100 != 0 || y % 400 == 0)

/-- Days in a month. -/
def daysInMonth (y m : Nat) : Nat :=
  if m == 2 then (if isLeap y then 29 else 28)
  else if m == 4 || m == 6 || m == 9 || m == 11 then 30
  else 31

/-- `date - relativedelta(months=k)`: move back `k` months on the month index
and clamp the day to the target month's length (dateutil semantics). -/
def subRelMonths (d : Date) (k : Nat) : Date :=
  let idx := d.year * 12 + (d.month - 1) - k
  let y := idx / 12
  let m := idx % 12 + 1
  ⟨y, m, min d.day (daysInMonth y m)⟩

/-- `date - relativedelta(years=k)`: decrement the year and clamp the day
(Feb 29 clamps to Feb 28 on non-leap targets). -/
def subRelYears (d : Date) (k : Nat) : Date :=
  ⟨d.year - k, d.month, min d.day (daysInMonth (d.year - k) d.month)⟩

/-- Total order key for dates (valid dates have month ≤ 12 < 100 and
day ≤ 31 < 100, so this is date order). SQL `BETWEEN` and `ORDER BY` on the
`observations.date` column are modelled through it. -/
def dateKey (d : Date) : Nat :=
  d.year * 10000 + d.month * 100 + d.day

/-! ## Table rows (`app/models/article.py`, `app/models/statistic_model/statistic.py`) -/

/-- `articles.status` (`app/models/enums.py`). -/
inductive ArticleStatus where
  | PENDING
  | PROCESSING
  | PROCESSED
  | FAILED
deriving DecidableEq, Repr

/-- One `articles` row. `url` carries a UNIQUE constraint in the schema. -/
structure ArticleRow where
  id : Nat
  title : String
  url : String
  description : String
  published_at : Date
  category : Option String
  status : ArticleStatus
deriving DecidableEq, Repr

/-- One `article_contents` row (1:1 with `articles`; the `images` column is
added by the alembic migration). -/
structure ContentRow where
  article_id : Nat
  content : String
  images : List String
deriving DecidableEq, Repr

/-- One item of the LLM `background_knowledge` payload. -/
structure BgItem where
  label : String
  content : String
deriving DecidableEq, Repr

/-- One item of the LLM `keywords` payload. -/
structure KwItem where
  term : String
  description : String
deriving DecidableEq, Repr

/-- One item of the LLM `related_statistics` payload; `indicator_id` is read
with `.get`, hence optional. -/
structure RelStat where
  indicator_id : Option String
  reason : String
deriving DecidableEq, Repr

/-- The SQL Float observation value, carried opaquely (no claim computes
with it). -/
abbrev ObsValue := Int

/-- One serialised observation as placed in `statistics_data`
(`{"date": obs.date.isoformat(), "value": obs.value}`; isoformat is an
injective rendering of the date, kept as `Date` here). -/
structure ObsOut where
  date : Date
  value : ObsValue
deriving DecidableEq, Repr

/-- One entry of the list built by
`services.get_contextual_statistics_for_article`. -/
structure StatEntry where
  indicator_id : String
  name : Option String
  unit : Option String
  notes : Option String
  frequency : Option String
  observations : List ObsOut
deriving DecidableEq, Repr

/-- Parsed LLM analysis result. The Python value is a dict; key presence is
modelled by `Option`. An empty dict is the all-`none` record, so Python dict
truthiness checks coincide with key-presence checks. -/
structure AnalysisResult where
  background_knowledge : Option (List BgItem)
  keywords : Option (List KwItem)
  category : Option String
  related_statistics : Option (List RelStat)
deriving DecidableEq, Repr

/-- One `enriched_articles` row (`article_id` carries a UNIQUE constraint;
`related_statistics`/`statistics_data` are the JSONB columns written by the
active `save_enriched_data_and_cleanup`). -/
structure EnrichedRow where
  article_id : Nat
  background : Option (List BgItem)
  keywords : Option (List KwItem)
  category : String
  related_statistics : Option (List RelStat)
  statistics_data : List StatEntry
deriving DecidableEq, Repr

/-- One `statistics.indicators` row (reference data, read-only). -/
structure Indicator where
  indicator_id : String
  name : Option String
  frequency : Option String
  unit : Option String
  notes : Option String
deriving DecidableEq, Repr

/-- One `statistics.observations` row (reference data, read-only). -/
structure Observation where
  indicator_id : String
  date : Date
  value : ObsValue
deriving DecidableEq, Repr

/-- The mutable application tables. -/
structure DB where
  articles : List ArticleRow
  contents : List ContentRow
  enriched : List EnrichedRow
deriving DecidableEq, Repr

/-- The read-only statistics schema. -/
structure StatDB where
  indicators : List Indicator
  observations : List Observation
deriving DecidableEq, Repr

def emptyDB : DB := ⟨[], [], []⟩

/-- Python exceptions surfaced by `app/core/services.py`. -/
inductive PyError where
  | validationError
  | databaseError
deriving DecidableEq, Repr

/-! ## `app/core/services.py`: ingestion -/

/-- Result of a `create_article` call: a value returned normally, or an
exception propagated to the caller. -/
inductive CreateOutcome where
  | ret (r : Option ArticleRow)
  | raised (e : PyError)
deriving DecidableEq, Repr

/-- Fresh primary key for a new `articles` row (strictly above every key in
use). -/
def freshId (db : DB) : Nat :=
  (db.articles.map (fun a => a.id)).foldr max 0 + 1

/-- `services.create_article(db, title, url, description, published_at,
content, images)`.

External capabilities are explicit: `parseDate` models
`dateutil.parser.parse` (`none` = raises `ValueError`/`TypeError`), and
`sanitize` models `BeautifulSoup(description, "html.parser").get_text(strip=True)`.

The final `db.commit()` enforces the UNIQUE constraint on `articles.url`
(`app/models/article.py`): inserting a duplicate of a stored url raises
`SQLAlchemyError`, which the function converts to `DatabaseError` after a
rollback. Every error path leaves the committed state unchanged. -/
def create_article (parseDate : String → Option Date) (sanitize : String → String)
    (db : DB) (title url description published_at content : String)
    (images : List String) : DB × CreateOutcome :=
  if title = "" ∨ url = "" ∨ content = "" then
    (db, .raised .validationError)
  else if pyLen (pyStrip content) < 50 then
    (db, .ret none)
  else if db.articles.any (fun a => a.url == url) then
    -- duplicate URL: skip silently
    (db, .ret none)
  else
    match parseDate published_at with
    | none => (db, .raised .validationError)
    | some parsed_date =>
      let row : ArticleRow :=
        { id := freshId db
          title := pyStrip title
          url := pyStrip url
          description := sanitize description
          published_at := parsed_date
          category := none
          status := .PENDING }
      if db.articles.any (fun a => a.url == pyStrip url) then
        -- UNIQUE(url) violation on commit: rollback, raise DatabaseError
        (db, .raised .databaseError)
      else
        ({ db with
            articles := db.articles ++ [row]
            contents := db.contents ++ [⟨row.id, pyStrip content, images⟩] },
         .ret (some row))

/-! ## `app/core/services.py`: work selection and status updates -/

/-- `services.get_pending_articles(db)`: rows with status PENDING or FAILED. -/
def get_pending_articles (db : DB) : List ArticleRow :=
  db.articles.filter (fun a => a.status = .PENDING ∨ a.status = .FAILED)

/-- `services.get_article_by_id(db, article_id)`. -/
def get_article_by_id (db : DB) (article_id : Nat) : Option ArticleRow :=
  db.articles.find? (fun a => a.id == article_id)

/-- The committed effect of `services.update_article_status(db, article,
status)`: set the status of the row with the article's id. -/
def setStatus (db : DB) (aid : Nat) (st : ArticleStatus) : DB :=
  { db with
      articles := db.articles.map (fun a => if a.id == aid then { a with status := st } else a) }

/-! ## `app/core/services.py`: contextual statistics -/

/-- The lookback-window start computed inside
`get_contextual_statistics_for_article` from the indicator's `frequency`
column, with `end_date` the window end. -/
def lookbackStart (frequency : Option String) (end_date : Date) : Date :=
  if frequency = some "D" then subRelMonths end_date 3
  else if frequency = some "M" then subRelMonths end_date 24
  else if frequency = some "Q" then subRelYears end_date 5
  else subRelYears end_date 1

/-- SQL `Observation.date.between(start_date, end_date)` (inclusive). -/
def inWindow (startd endd : Date) (d : Date) : Bool :=
  dateKey startd ≤ dateKey d && dateKey d ≤ dateKey endd

/-- Insertion step for the date-ascending sort. -/
def insertByDate (o : ObsOut) : List ObsOut → List ObsOut
  | [] => [o]
  | h :: t => if dateKey o.date ≤ dateKey h.date then o :: h :: t else h :: insertByDate o t

/-- SQL `ORDER BY date ASC` as an insertion sort. -/
def sortByDate (l : List ObsOut) : List ObsOut :=
  l.foldr insertByDate []

/-- `services.get_contextual_statistics_for_article(db, indicator_ids,
article_published_at)`. `end_date = article_published_at.date()`; each
requested id missing from `indicators` is skipped with a warning; for each
found indicator the observations between the frequency-dependent window
start and `end_date` are returned ascending by date. -/
def get_contextual_statistics_for_article (sdb : StatDB) (indicator_ids : List String)
    (article_published_at : Date) : List StatEntry :=
  if indicator_ids = [] then []
  else
    let end_date := article_published_at
    indicator_ids.filterMap (fun indicator_id =>
      match sdb.indicators.find? (fun i => i.indicator_id == indicator_id) with
      | none => none   -- warning logged, continue
      | some meta =>
        let start_date := lookbackStart meta.frequency end_date
        let observations := sortByDate
          ((sdb.observations.filter (fun o =>
              o.indicator_id == indicator_id && inWindow start_date end_date o.date)).map
            (fun o => ⟨o.date, o.value⟩))
        some { indicator_id := meta.indicator_id
               name := meta.name
               unit := meta.unit
               notes := meta.notes
               frequency := meta.frequency
               observations := observations })

/-! ## `app/core/services.py`: enrichment persistence

`services.py` defines `save_enriched_data_and_cleanup` twice; the second
definition (lines 200-241, the one taking `statistics_data`) shadows the
first and is the one the pipeline calls. -/

/-- The committed effect of a successful `save_enriched_data_and_cleanup`:
insert the `enriched_articles` row and flip the article to PROCESSED (with
its category), in one transaction. -/
def applyEnrich (db : DB) (aid : Nat) (res : AnalysisResult)
    (stats : List StatEntry) : DB :=
  let category_data := res.category.getD "기타"
  { db with
      enriched := db.enriched ++
        [{ article_id := aid
           background := res.background_knowledge
           keywords := res.keywords
           category := category_data
           related_statistics := res.related_statistics
           statistics_data := stats }]
      articles := db.articles.map (fun a =>
        if a.id == aid then { a with category := some category_data, status := .PROCESSED }
        else a) }

/-- `services.save_enriched_data_and_cleanup(db, article, analysis_result,
statistics_data)`. `commitOk` models whether the single `db.commit()`
succeeds; on failure the transaction is rolled back (state unchanged) and
`DatabaseError` is raised. -/
def save_enriched_data_and_cleanup (commitOk : Bool) (db : DB) (aid : Nat)
    (res : AnalysisResult) (stats : List StatEntry) : DB × Option PyError :=
  if commitOk then (applyEnrich db aid res stats, none)
  else (db, some .databaseError)

/-! ## `app/core/collectors.py`: the article crawler -/

/-- What `newspaper3k`'s download+parse produced for a URL: either some
exception was raised, or a page with title, text, `top_image` (empty string
when absent) and the auxiliary image candidates in encounter order. -/
inductive FetchResult where
  | raises
  | page (title text top_image : String) (images : List String)
deriving DecidableEq, Repr

/-- The Python value returned by `crawl_article_with_newspaper3k`, keeping
the tuple arity visible: the success triple, the validation-failure triple
`(None, None, None)`, and the bare pair `(None, None)` produced by the
`except` branch. -/
inductive CrawlReturn where
  | triple (title content : String) (images : List String)
  | noneTriple
  | nonePair
deriving DecidableEq, Repr

/-- The auxiliary-image loop of `crawl_article_with_newspaper3k`: keep a
candidate if it is non-empty, not already in the main list, starts with
http, and passes the content filter; the first 3 kept candidates are also
gated by the network size probe `_check_image_size` (modelled by
`checkSize`, which returns `true` on probe failure — fail-open). -/
def auxFilter (checkSize : String → Bool) (main : List String) :
    List String → List String → List String
  | acc, [] => acc
  | acc, img :: rest =>
    if img ≠ "" ∧ img ∉ main ∧ (pyStartsWith img "http" || pyStartsWith img "https")
        ∧ is_valid_content_image img then
      if acc.length < 3 then
        if checkSize img then auxFilter checkSize main (acc ++ [img]) rest
        else auxFilter checkSize main acc rest
      else auxFilter checkSize main (acc ++ [img]) rest
    else auxFilter checkSize main acc rest

/-- `collectors.crawl_article_with_newspaper3k(url)`, as a function of the
fetch outcome for that url and of the size-probe capability. -/
def crawl_article_with_newspaper3k (checkSize : String → Bool)
    (fetch : FetchResult) : CrawlReturn :=
  match fetch with
  | .raises => .nonePair   -- `return None, None`: a 2-tuple
  | .page title text top_image images =>
    if title = "" ∨ text = "" then .noneTriple
    else if pyLen text < 200 then .noneTriple
    else
      let main := if top_image ≠ "" ∧ is_valid_content_image top_image then [top_image] else []
      let filtered_images := auxFilter checkSize main [] images
      .triple title text (main ++ filtered_images.take 4)

/-! ## `app/core/processors.py`: LLM analysis -/

/-- How the OpenAI chat call ended: the raw payload string, a connectivity
or service error (`APIConnectionError`/`APIStatusError`), or any other
exception. -/
inductive LLMOutcome where
  | content (raw : String)
  | connectionError
  | otherError
deriving DecidableEq, Repr

/-- `processors.get_available_indicators_for_llm(db)`: indicators whose
`name` is not NULL, projected to (id, name, notes). -/
def get_available_indicators_for_llm (sdb : StatDB) :
    List (String × String × Option String) :=
  (sdb.indicators.filter (fun i => i.name.isSome)).map
    (fun i => (i.indicator_id, i.name.getD "", i.notes))

/-- `processors.analyze_article_with_llm(db, content)` as a function of the
chat-call outcome. `jsonParse` models `json.loads` on the raw payload plus
the dict shape (`none` = `JSONDecodeError`). Result: `.ok (some r)` on
success, `.ok none` when the function returns `None`, `.error e` when an
exception propagates to the caller. -/
def analyze_article_with_llm (jsonParse : String → Option AnalysisResult)
    (sdb : StatDB) (outcome : LLMOutcome) : Except PyError (Option AnalysisResult) :=
  if get_available_indicators_for_llm sdb = [] then
    .ok none   -- no indicators: warn and skip
  else
    match outcome with
    | .content raw =>
      match jsonParse raw with
      | some result => .ok (some result)
      | none => .ok none          -- JSONDecodeError: log, return None
    | .connectionError => .ok none -- API connection/status error: log, return None
    | .otherError => .ok none      -- generic `except Exception`: critical log, return None

/-! ## `scripts/pipeline.py`: the per-article processing loop -/

/-- What the stages between the PROCESSING commit and the final save did for
one article: either `analyze_article_with_llm` returned a value `r` (and
every later commit succeeds), or some stage raised
(`RequestException`/`OpenAIError`, an unexpected exception, or the
`DatabaseError` re-raised by a failed save commit — each handler does the
same rollback/refetch/FAIL sequence). -/
inductive StageOutcome where
  | analysis (r : Option AnalysisResult)
  | stageRaised
deriving DecidableEq, Repr

/-- The validation at pipeline.py line 64: `not analysis_result or
"background_knowledge" not in analysis_result or "category" not in
analysis_result` raises `ValueError`. -/
def validAnalysis : Option AnalysisResult → Bool
  | none => false
  | some res => res.background_knowledge.isSome && res.category.isSome

/-- pipeline.py lines 68-72: indicator ids the LLM identified, dropping
falsy (`None` or empty) ids. -/
def relatedIds (res : AnalysisResult) : List String :=
  (res.related_statistics.getD []).filterMap (fun item =>
    match item.indicator_id with
    | some s => if s = "" then none else some s
    | none => none)

/-- The exception handlers of the loop (pipeline.py lines 87-107): roll back
the active transaction, re-fetch the row by the in-memory handle's id, and
if found set its status to FAILED. -/
def failCurrent (db : DB) (aid : Nat) : DB :=
  match get_article_by_id db aid with
  | some article_to_fail => setStatus db article_to_fail.id .FAILED
  | none => db

/-- One iteration of the processing loop (pipeline.py lines 55-107) for the
work-list row `a` (the in-memory ORM handle selected at run start):
commit PROCESSING, run the stages, and either save the enrichment or mark
the article FAILED. -/
def processOne (sdb : StatDB) (db : DB) (a : ArticleRow) (out : StageOutcome) : DB :=
  let db1 := setStatus db a.id .PROCESSING
  match out with
  | .analysis r =>
    if validAnalysis r then
      let res := (r.getD ⟨none, none, none, none⟩)
      let related_ids := relatedIds res
      let final_stats_data :=
        if related_ids = [] then []
        else get_contextual_statistics_for_article sdb related_ids a.published_at
      (save_enriched_data_and_cleanup true db1 a.id res final_stats_data).1
    else
      failCurrent db1 a.id   -- ValueError path
  | .stageRaised =>
    failCurrent db1 a.id

/-- Stage 2 of `run_article_processing_pipeline`: select the PENDING/FAILED
rows once, then process each in order; `out` gives each article's stage
outcome (keyed by id). -/
def runProcessing (sdb : StatDB) (db : DB) (out : Nat → StageOutcome) : DB :=
  (get_pending_articles db).foldl (fun d a => processOne sdb d a (out a.id)) db

/-! ## Reachable database states

Each constructor is one committed transaction the pipeline can perform,
with the preconditions the surrounding code establishes:
  - `ingest`: any `create_article` call that returns normally (error paths
    leave the committed state unchanged and appear as no steps);
  - `markProcessing`: pipeline.py line 58 runs only on rows selected by
    `get_pending_articles`, i.e. PENDING or FAILED;
  - `enrichOk`: pipeline.py line 84 runs on the current article, which the
    same iteration just committed to PROCESSING;
  - `markFailed`: the handlers run on the re-fetched current article, whose
    committed status is PENDING/FAILED (PROCESSING commit failed),
    or PROCESSING (a later stage failed); a successful save ends the
    iteration, so the handlers never see PROCESSED. -/
inductive Step : DB → DB → Prop
  | ingest (pd : String → Option Date) (sz : String → String)
      (db : DB) (t u de p c : String) (imgs : List String)
      (db2 : DB) (r : Option ArticleRow)
      (h : create_article pd sz db t u de p c imgs = (db2, .ret r)) :
      Step db db2
  | markProcessing (db : DB) (aid : Nat)
      (h : (get_article_by_id db aid).map (fun a => a.status) = some .PENDING ∨
           (get_article_by_id db aid).map (fun a => a.status) = some .FAILED) :
      Step db (setStatus db aid .PROCESSING)
  | enrichOk (db : DB) (aid : Nat) (res : AnalysisResult) (stats : List StatEntry)
      (h : (get_article_by_id db aid).map (fun a => a.status) = some .PROCESSING) :
      Step db (applyEnrich db aid res stats)
  | markFailed (db : DB) (aid : Nat)
      (h : (get_article_by_id db aid).map (fun a => a.status) ≠ some .PROCESSED) :
      Step db (setStatus db aid .FAILED)

/-- Database states reachable from the empty database through the
pipeline's committed transactions. -/
inductive Reachable : DB → Prop
  | init : Reachable emptyDB
  | step {db db2 : DB} (h : Reachable db) (s : Step db db2) : Reachable db2

/-- A fully successful outcome: the analysis call returned a dict that
passes the pipeline's validation. -/
def fullSuccess (out : StageOutcome) : Prop :=
  ∃ r : AnalysisResult, out = .analysis (some r) ∧ validAnalysis (some r) = true

/-! ## Concrete fixtures used by witnesses and counterexamples -/

/-- Date-parse capability for the concrete runs: parses exactly the
string "ok". -/
def pdFix : String → Option Date := fun s => if s = "ok" then some ⟨2025, 1, 1⟩ else none

/-- Sanitiser capability for the concrete runs. -/
def szFix : String → String := fun s => s

/-- A 50-character article body. -/
def bodyFix : String := "aaaaaaaaaaaaaaaaaaaaaaaaaaaaaaaaaaaaaaaaaaaaaaaaaa"

/-- A 200-character article body. -/
def longBody : String := ⟨List.replicate 200 (Char.ofNat 98)⟩

/-- The database after one ingest of url "u1". -/
def dbDup : DB :=
  ⟨[⟨1, "t", "u1", "d", ⟨2025, 1, 1⟩, none, .PENDING⟩], [⟨1, bodyFix, []⟩], []⟩

/-- A url carrying a trailing space. -/
def urlWS : String := "http://a.com "

/-- The database after one ingest of the whitespace-carrying url. -/
def dbWS : DB := (create_article pdFix szFix emptyDB "t" urlWS "d" "ok" bodyFix []).1

/-- A one-indicator statistics schema. -/
def sdbFix : StatDB :=
  ⟨[⟨"K1", some "KOSPI", some "D", some "points", none⟩], []⟩

/-- A statistics schema with one daily indicator and one observation. -/
def sdbW : StatDB :=
  ⟨[⟨"K1", some "KOSPI", some "D", some "points", none⟩], [⟨"K1", ⟨2025, 5, 1⟩, 0⟩]⟩

/-- The entry `get_contextual_statistics_for_article` builds from `sdbW`. -/
def entryW : StatEntry :=
  ⟨"K1", some "KOSPI", some "points", none, some "D", [⟨⟨2025, 5, 1⟩, 0⟩]⟩

/-- A valid LLM analysis payload. -/
def resFix : AnalysisResult :=
  ⟨some [⟨"l1", "c1"⟩, ⟨"l2", "c2"⟩], some [], some "금융", some []⟩

/-- Three PENDING articles awaiting processing. -/
def db3 : DB :=
  ⟨[⟨1, "t1", "v1", "d", ⟨2025, 1, 1⟩, none, .PENDING⟩,
    ⟨2, "t2", "v2", "d", ⟨2025, 1, 1⟩, none, .PENDING⟩,
    ⟨3, "t3", "v3", "d", ⟨2025, 1, 1⟩, none, .PENDING⟩], [], []⟩

/-- Outcomes for the `db3` run: article 2 raises, the others succeed. -/
def out3 : Nat → StageOutcome :=
  fun i => if i = 2 then .stageRaised else .analysis (some resFix)

/-! ## Derived observables and invariants -/

/-- The committed status of the article with a given id, if present. -/
def statusOf (db : DB) (aid : Nat) : Option ArticleStatus :=
  (get_article_by_id db aid).map (fun a => a.status)

/-- Number of `enriched_articles` rows referencing a given article id. -/
def enrichedCount (db : DB) (aid : Nat) : Nat :=
  (db.enriched.filter (fun e => e.article_id == aid)).length

/-- The status invariant of the spec: PROCESSED iff exactly one
`EnrichedArticle`, and FAILED implies zero. -/
def StatusInvariant (db : DB) : Prop :=
  ∀ a ∈ db.articles,
    (a.status = .PROCESSED ↔ enrichedCount db a.id = 1) ∧
    (a.status = .FAILED → enrichedCount db a.id = 0)

/-- Strengthened inductive invariant: primary keys are distinct, enriched
rows reference stored articles, and the enriched count is exactly the
status indicator. -/
def WF (db : DB) : Prop :=
  (db.articles.map (fun a => a.id)).Nodup ∧
  (∀ e ∈ db.enriched, ∃ a ∈ db.articles, a.id = e.article_id) ∧
  (∀ a ∈ db.articles, enrichedCount db a.id = if a.status = .PROCESSED then 1 else 0)

/-- Contents persisted by the pipeline never carry a trimmed body of fewer
than 50 characters. -/
def ContentFloor (db : DB) : Prop :=
  ∀ cr ∈ db.contents, 50 ≤ pyLen (pyStrip cr.content)

/-! ## Helper lemmas: strings -/

theorem stripChars_eq_rdropWhile (l : List Char) :
    stripChars l = List.rdropWhile Char.isWhitespace (List.dropWhile Char.isWhitespace l) := rfl

theorem stripChars_idem (l : List Char) : stripChars (stripChars l) = stripChars l := by
  rw [stripChars_eq_rdropWhile, stripChars_eq_rdropWhile]
  have h1 : List.dropWhile Char.isWhitespace
      (List.rdropWhile Char.isWhitespace (List.dropWhile Char.isWhitespace l)) =
      List.rdropWhile Char.isWhitespace (List.dropWhile Char.isWhitespace l) := by
    rw [List.dropWhile_eq_self_iff]
    intro hl
    have hpre := List.rdropWhile_prefix Char.isWhitespace (List.dropWhile Char.isWhitespace l)
    have hl2 : 0 < (List.dropWhile Char.isWhitespace l).length :=
      lt_of_lt_of_le hl hpre.length_le
    have := List.dropWhile_get_zero_not Char.isWhitespace l hl2
    simpa [List.get_eq_getElem, hpre.getElem hl] using this
  rw [h1, List.rdropWhile_idempotent]

theorem pyStrip_idem (s : String) : pyStrip (pyStrip s) = pyStrip s := by
  simp [pyStrip, stripChars_idem]

/-! ## Helper lemmas: id-preserving row maps -/

theorem find?_map_id_pres {g : ArticleRow → ArticleRow}
    (hg : ∀ a, (g a).id = a.id) (l : List ArticleRow) (aid : Nat) :
    (l.map g).find? (fun a => a.id == aid) =
      ((l.find? (fun a => a.id == aid)).map g) := by
  rw [List.find?_map]
  have hp : ((fun a : ArticleRow => a.id == aid) ∘ g) = (fun a : ArticleRow => a.id == aid) := by
    funext a
    simp [hg]
  rw [hp]

theorem option_map_congr_found {p : ArticleRow → Bool} {l : List ArticleRow}
    {f g : ArticleRow → ArticleRow} (hfg : ∀ a, p a = true → f a = g a) :
    Option.map f (l.find? p) = Option.map g (l.find? p) := by
  cases h : l.find? p with
  | none => rfl
  | some a => simp [hfg a (List.find?_some h)]

theorem option_map_found_self {p : ArticleRow → Bool} {l : List ArticleRow}
    {f : ArticleRow → ArticleRow} (hf : ∀ a, p a = true → f a = a) :
    Option.map f (l.find? p) = l.find? p := by
  cases h : l.find? p with
  | none => rfl
  | some a => simp [hf a (List.find?_some h)]

theorem get_setStatus_same (db : DB) (aid : Nat) (st : ArticleStatus) :
    get_article_by_id (setStatus db aid st) aid =
      (get_article_by_id db aid).map (fun a => { a with status := st }) := by
  unfold get_article_by_id setStatus
  rw [find?_map_id_pres (fun a => by split <;> rfl)]
  exact option_map_congr_found (fun a ha => by simp at ha; simp [ha])

theorem get_setStatus_other (db : DB) (aid k : Nat) (st : ArticleStatus) (hk : k ≠ aid) :
    get_article_by_id (setStatus db aid st) k = get_article_by_id db k := by
  unfold get_article_by_id setStatus
  rw [find?_map_id_pres (fun a => by split <;> rfl)]
  exact option_map_found_self (fun a ha => by simp at ha; simp [ha, hk])

theorem get_applyEnrich_same (db : DB) (aid : Nat) (res : AnalysisResult)
    (stats : List StatEntry) :
    get_article_by_id (applyEnrich db aid res stats) aid =
      (get_article_by_id db aid).map
        (fun a => { a with category := some (res.category.getD "기타"), status := .PROCESSED }) := by
  unfold get_article_by_id applyEnrich
  rw [find?_map_id_pres (fun a => by split <;> rfl)]
  exact option_map_congr_found (fun a ha => by simp at ha; simp [ha])

theorem get_applyEnrich_other (db : DB) (aid k : Nat) (res : AnalysisResult)
    (stats : List StatEntry) (hk : k ≠ aid) :
    get_article_by_id (applyEnrich db aid res stats) k = get_article_by_id db k := by
  unfold get_article_by_id applyEnrich
  rw [find?_map_id_pres (fun a => by split <;> rfl)]
  exact option_map_found_self (fun a ha => by simp at ha; simp [ha, hk])

/-- With distinct primary keys, looking up the id of a stored row finds that
row. -/
theorem find?_of_mem_nodup {l : List ArticleRow}
    (hnd : (l.map (fun a => a.id)).Nodup) {a : ArticleRow} (ha : a ∈ l) :
    l.find? (fun x => x.id == a.id) = some a := by
  induction l with
  | nil => cases ha
  | cons x xs ih =>
    rcases List.mem_cons.mp ha with rfl | hxs
    · simp [List.find?_cons]
    · have hnd2 := hnd
      simp [List.nodup_cons] at hnd2
      have hne : x.id ≠ a.id := by
        intro he
        exact hnd2.1 a hxs he.symm
      rw [List.find?_cons]
      have : (x.id == a.id) = false := by simpa using hne
      rw [this]
      exact ih hnd2.2 hxs

/-- With distinct primary keys, a stored row's committed status is the row's
status field. -/
theorem statusOf_of_mem_nodup {db : DB}
    (hnd : (db.articles.map (fun a => a.id)).Nodup) {a : ArticleRow}
    (ha : a ∈ db.articles) : statusOf db a.id = some a.status := by
  unfold statusOf get_article_by_id
  rw [find?_of_mem_nodup hnd ha]
  rfl

/-! ## Helper lemmas: enriched counts and fresh ids -/

theorem enrichedCount_setStatus (db : DB) (aid : Nat) (st : ArticleStatus) (k : Nat) :
    enrichedCount (setStatus db aid st) k = enrichedCount db k := rfl

theorem enrichedCount_applyEnrich (db : DB) (aid : Nat) (res : AnalysisResult)
    (stats : List StatEntry) (k : Nat) :
    enrichedCount (applyEnrich db aid res stats) k =
      enrichedCount db k + (if aid = k then 1 else 0) := by
  unfold enrichedCount applyEnrich
  rw [List.filter_append, List.length_append]
  congr 1
  by_cases h : aid = k <;> simp [h]

theorem le_foldr_max {x : Nat} : ∀ {l : List Nat}, x ∈ l → x ≤ l.foldr max 0 := by
  intro l
  induction l with
  | nil => intro h; cases h
  | cons y ys ih =>
    intro h
    rcases List.mem_cons.mp h with rfl | hmem
    · exact le_max_left _ _
    · exact le_trans (ih hmem) (le_max_right _ _)

theorem id_ne_freshId {db : DB} {a : ArticleRow} (ha : a ∈ db.articles) :
    a.id ≠ freshId db := by
  have hle : a.id ≤ (db.articles.map (fun a => a.id)).foldr max 0 :=
    le_foldr_max (List.mem_map_of_mem _ ha)
  unfold freshId
  omega

/-- The insert branch of `create_article` characterised: a normal return is
either a silent skip (state unchanged) or the atomic insert of the new
article together with its content. -/
theorem create_article_ret_cases {pd : String → Option Date} {sz : String → String}
    {db : DB} {t u de p c : String} {imgs : List String} {db2 : DB} {r : Option ArticleRow}
    (h : create_article pd sz db t u de p c imgs = (db2, .ret r)) :
    db2 = db ∨
    ∃ d : Date, pd p = some d ∧
      50 ≤ pyLen (pyStrip c) ∧
      (db.articles.any (fun a => a.url == pyStrip u)) = false ∧
      db2 = { db with
        articles := db.articles ++
          [{ id := freshId db, title := pyStrip t, url := pyStrip u,
             description := sz de, published_at := d, category := none,
             status := .PENDING }]
        contents := db.contents ++ [⟨freshId db, pyStrip c, imgs⟩] } := by
  unfold create_article at h
  split at h
  · simp at h
  · split at h
    · exact Or.inl (by cases h; rfl)
    · split at h
      · exact Or.inl (by cases h; rfl)
      · rename_i hlen _
        split at h
        · simp at h
        · rename_i d hd
          split at h
          · simp at h
          · rename_i hconf
            refine Or.inr ⟨d, hd, by omega, by simpa using hconf, ?_⟩
            cases h
            rfl

/-! ## Preservation of the strengthened invariant -/

theorem WF_empty : WF emptyDB := by
  refine ⟨by simp [emptyDB], ?_, ?_⟩ <;> intro e he <;> simp [emptyDB] at he

theorem ids_setStatus (db : DB) (aid : Nat) (st : ArticleStatus) :
    (setStatus db aid st).articles.map (fun a => a.id) =
      db.articles.map (fun a => a.id) := by
  unfold setStatus
  rw [List.map_map]
  congr 1
  funext a
  simp only [Function.comp]
  split <;> rfl

theorem ids_applyEnrich (db : DB) (aid : Nat) (res : AnalysisResult) (stats : List StatEntry) :
    (applyEnrich db aid res stats).articles.map (fun a => a.id) =
      db.articles.map (fun a => a.id) := by
  unfold applyEnrich
  rw [List.map_map]
  congr 1
  funext a
  simp only [Function.comp]
  split <;> rfl

theorem WF_setStatus_nonProcessed {db : DB} {aid : Nat} {st : ArticleStatus}
    (hst : st ≠ .PROCESSED) (hpre : statusOf db aid ≠ some .PROCESSED)
    (hwf : WF db) : WF (setStatus db aid st) := by
  obtain ⟨hnd, hfk, hcnt⟩ := hwf
  refine ⟨by rw [ids_setStatus]; exact hnd, ?_, ?_⟩
  · intro e he
    obtain ⟨a, ha, hae⟩ := hfk e he
    refine ⟨if a.id == aid then { a with status := st } else a, ?_, ?_⟩
    · exact List.mem_map_of_mem _ ha
    · split <;> simpa using hae
  · intro a' ha'
    obtain ⟨a, ha, rfl⟩ := List.mem_map.mp ha'
    rw [show enrichedCount (setStatus db aid st) = enrichedCount db from rfl]
    by_cases hid : a.id = aid
    · have hfind := find?_of_mem_nodup hnd ha
      have hstatus : statusOf db a.id = some a.status := by
        unfold statusOf get_article_by_id
        rw [hfind]
        rfl
      have hnp : a.status ≠ .PROCESSED := by
        intro hp
        exact hpre (by rw [← hid, hstatus, hp])
      have hc := hcnt a ha
      rw [if_neg hnp] at hc
      simp only [hid, beq_self_eq_true, if_pos]
      simpa [hid, hst] using hc
    · have : (a.id == aid) = false := by simpa using hid
      rw [this]
      simp only [if_false, Bool.false_eq_true]
      exact hcnt a ha

theorem WF_applyEnrich {db : DB} {aid : Nat} {res : AnalysisResult}
    {stats : List StatEntry}
    (hpre : statusOf db aid = some .PROCESSING)
    (hwf : WF db) : WF (applyEnrich db aid res stats) := by
  obtain ⟨hnd, hfk, hcnt⟩ := hwf
  obtain ⟨rr, hrr, hrrs⟩ : ∃ rr, get_article_by_id db aid = some rr ∧ rr.status = .PROCESSING := by
    unfold statusOf at hpre
    cases hfind : get_article_by_id db aid with
    | none => rw [hfind] at hpre; cases hpre
    | some rr =>
      rw [hfind] at hpre
      exact ⟨rr, rfl, by simpa using hpre⟩
  have hrrmem : rr ∈ db.articles := List.mem_of_find?_eq_some hrr
  have hrrid : rr.id = aid := by simpa using List.find?_some hrr
  refine ⟨by rw [ids_applyEnrich]; exact hnd, ?_, ?_⟩
  · intro e he
    unfold applyEnrich at he
    simp only [List.mem_append, List.mem_singleton] at he
    rcases he with he | rfl
    · obtain ⟨a, ha, hae⟩ := hfk e he
      refine ⟨if a.id == aid then
          { a with category := some (res.category.getD "기타"), status := .PROCESSED }
        else a, List.mem_map_of_mem _ ha, ?_⟩
      split <;> simpa using hae
    · refine ⟨if rr.id == aid then
          { rr with category := some (res.category.getD "기타"), status := .PROCESSED }
        else rr, List.mem_map_of_mem _ hrrmem, ?_⟩
      split <;> simpa using hrrid
  · intro a' ha'
    obtain ⟨a, ha, rfl⟩ := List.mem_map.mp ha'
    by_cases hid : a.id = aid
    · have ha_eq : a = rr := by
        have h1 := find?_of_mem_nodup hnd ha
        rw [hid] at h1
        unfold get_article_by_id at hrr
        rw [h1] at hrr
        exact Option.some_inj.mp hrr
      have hcount0 : enrichedCount db a.id = 0 := by
        have hc := hcnt a ha
        rw [ha_eq] at hc ⊢
        rw [hrrs] at hc
        simpa using hc
      rw [show (a.id == aid) = true by simpa using hid]
      simp only [if_true]
      show enrichedCount (applyEnrich db aid res stats) a.id =
        if ArticleStatus.PROCESSED = ArticleStatus.PROCESSED then 1 else 0
      rw [if_pos rfl, enrichedCount_applyEnrich, if_pos hid.symm, hcount0]
    · rw [show (a.id == aid) = false by simpa using hid]
      simp only [Bool.false_eq_true, if_false]
      show enrichedCount (applyEnrich db aid res stats) a.id =
        if a.status = ArticleStatus.PROCESSED then 1 else 0
      rw [enrichedCount_applyEnrich, if_neg (fun he => hid he.symm)]
      simpa using hcnt a ha

theorem WF_ingest {pd : String → Option Date} {sz : String → String}
    {db : DB} {t u de p c : String} {imgs : List String} {db2 : DB} {r : Option ArticleRow}
    (h : create_article pd sz db t u de p c imgs = (db2, .ret r))
    (hwf : WF db) : WF db2 := by
  rcases create_article_ret_cases h with rfl | ⟨d, _, _, _, rfl⟩
  · exact hwf
  · obtain ⟨hnd, hfk, hcnt⟩ := hwf
    have hfresh : ∀ x ∈ db.articles.map (fun a => a.id), x ≠ freshId db := by
      intro x hx
      obtain ⟨a, ha, rfl⟩ := List.mem_map.mp hx
      exact id_ne_freshId ha
    refine ⟨?_, ?_, ?_⟩
    · rw [List.map_append]
      rw [List.nodup_append]
      refine ⟨hnd, by simp, ?_⟩
      intro x hx hx'
      simp at hx'
      exact hfresh x hx hx'
    · intro e he
      obtain ⟨a, ha, hae⟩ := hfk e he
      exact ⟨a, List.mem_append_left _ ha, hae⟩
    · intro a' ha'
      rcases List.mem_append.mp ha' with ha | hnew
      · exact hcnt a' ha
      · simp only [List.mem_singleton] at hnew
        subst hnew
        simp only []
        have hzero : enrichedCount db (freshId db) = 0 := by
          unfold enrichedCount
          rw [List.length_eq_zero, List.filter_eq_nil_iff]
          intro e he
          obtain ⟨a, ha, hae⟩ := hfk e he
          have := id_ne_freshId ha
          simp [← hae]
          omega
        rw [show enrichedCount { db with
            articles := db.articles ++
              [{ id := freshId db, title := pyStrip t, url := pyStrip u,
                 description := sz de, published_at := d, category := none,
                 status := .PENDING }]
            contents := db.contents ++ [⟨freshId db, pyStrip c, imgs⟩] } =
          enrichedCount db from rfl]
        rw [hzero]
        rfl

theorem WF_step {db db2 : DB} (s : Step db db2) (hwf : WF db) : WF db2 := by
  cases s with
  | ingest pd sz db t u de p c imgs db2 r h => exact WF_ingest h hwf
  | markProcessing db aid h =>
    refine WF_setStatus_nonProcessed (by simp) ?_ hwf
    rcases h with h | h <;> rw [show statusOf db aid =
        (get_article_by_id db aid).map (fun a => a.status) from rfl, h] <;> simp
  | enrichOk db aid res stats h => exact WF_applyEnrich h hwf
  | markFailed db aid h =>
    exact WF_setStatus_nonProcessed (by simp) h hwf

theorem WF_reachable {db : DB} (h : Reachable db) : WF db := by
  induction h with
  | init => exact WF_empty
  | step _ s ih => exact WF_step s ih

theorem StatusInvariant_of_WF {db : DB} (hwf : WF db) : StatusInvariant db := by
  obtain ⟨_, _, hcnt⟩ := hwf
  intro a ha
  have hc := hcnt a ha
  constructor
  · constructor
    · intro hp
      rw [hp] at hc
      simpa using hc
    · intro h1
      by_contra hnp
      rw [if_neg hnp] at hc
      omega
  · intro hf
    have : a.status ≠ .PROCESSED := by
      rw [hf]
      intro hcontra
      cases hcontra
    rw [if_neg this] at hc
    exact hc

/-! ## Preservation of the persisted content floor -/

theorem contents_setStatus (db : DB) (aid : Nat) (st : ArticleStatus) :
    (setStatus db aid st).contents = db.contents := rfl

theorem contents_applyEnrich (db : DB) (aid : Nat) (res : AnalysisResult)
    (stats : List StatEntry) :
    (applyEnrich db aid res stats).contents = db.contents := rfl

theorem ContentFloor_step {db db2 : DB} (s : Step db db2) (hf : ContentFloor db) :
    ContentFloor db2 := by
  cases s with
  | ingest pd sz db t u de p c imgs db2 r h =>
    rcases create_article_ret_cases h with rfl | ⟨d, _, hlen, _, rfl⟩
    · exact hf
    · intro cr hcr
      rcases List.mem_append.mp hcr with hold | hnew
      · exact hf cr hold
      · simp only [List.mem_singleton] at hnew
        subst hnew
        show 50 ≤ pyLen (pyStrip (pyStrip c))
        rw [pyStrip_idem]
        exact hlen
  | markProcessing db aid h => intro cr hcr; exact hf cr hcr
  | enrichOk db aid res stats h => intro cr hcr; exact hf cr hcr
  | markFailed db aid h => intro cr hcr; exact hf cr hcr

theorem ContentFloor_reachable {db : DB} (h : Reachable db) : ContentFloor db := by
  induction h with
  | init => intro cr hcr; simp [emptyDB] at hcr
  | step _ s ih => exact ContentFloor_step s ih

/-! ## Helper lemmas: the processing loop -/

theorem get_article_by_id_some_id {db : DB} {aid : Nat} {r : ArticleRow}
    (h : get_article_by_id db aid = some r) : r.id = aid := by
  unfold get_article_by_id at h
  simpa using List.find?_some h

theorem save_fst (db : DB) (aid : Nat) (res : AnalysisResult) (stats : List StatEntry) :
    (save_enriched_data_and_cleanup true db aid res stats).1 = applyEnrich db aid res stats := rfl

theorem get_failCurrent_other (db : DB) (aid k : Nat) (hk : k ≠ aid) :
    get_article_by_id (failCurrent db aid) k = get_article_by_id db k := by
  unfold failCurrent
  cases h : get_article_by_id db aid with
  | none => rfl
  | some r =>
    show get_article_by_id (setStatus db r.id .FAILED) k = get_article_by_id db k
    rw [get_article_by_id_some_id h]
    exact get_setStatus_other _ _ _ _ hk

theorem get_processOne_other (sdb : StatDB) (d : DB) (a : ArticleRow)
    (out : StageOutcome) (k : Nat) (hk : k ≠ a.id) :
    get_article_by_id (processOne sdb d a out) k = get_article_by_id d k := by
  cases out with
  | analysis r =>
    by_cases hv : validAnalysis r = true
    · simp only [processOne, hv, if_true]
      rw [save_fst, get_applyEnrich_other _ _ _ _ _ hk, get_setStatus_other _ _ _ _ hk]
    · simp only [processOne, hv, Bool.false_eq_true, if_false]
      rw [get_failCurrent_other _ _ _ hk, get_setStatus_other _ _ _ _ hk]
  | stageRaised =>
    simp only [processOne]
    rw [get_failCurrent_other _ _ _ hk, get_setStatus_other _ _ _ _ hk]

theorem isSome_get_setStatus (db : DB) (aid : Nat) (st : ArticleStatus) (k : Nat) :
    (get_article_by_id (setStatus db aid st) k).isSome = (get_article_by_id db k).isSome := by
  by_cases hk : k = aid
  · subst hk
    rw [get_setStatus_same]
    cases get_article_by_id db k <;> rfl
  · rw [get_setStatus_other _ _ _ _ hk]

theorem isSome_get_applyEnrich (db : DB) (aid : Nat) (res : AnalysisResult)
    (stats : List StatEntry) (k : Nat) :
    (get_article_by_id (applyEnrich db aid res stats) k).isSome =
      (get_article_by_id db k).isSome := by
  by_cases hk : k = aid
  · subst hk
    rw [get_applyEnrich_same]
    cases get_article_by_id db k <;> rfl
  · rw [get_applyEnrich_other _ _ _ _ _ hk]

theorem isSome_get_failCurrent (db : DB) (aid k : Nat) :
    (get_article_by_id (failCurrent db aid) k).isSome = (get_article_by_id db k).isSome := by
  unfold failCurrent
  cases h : get_article_by_id db aid with
  | none => rfl
  | some r => rw [isSome_get_setStatus]

theorem isSome_get_processOne (sdb : StatDB) (d : DB) (a : ArticleRow)
    (out : StageOutcome) (k : Nat) :
    (get_article_by_id (processOne sdb d a out) k).isSome =
      (get_article_by_id d k).isSome := by
  cases out with
  | analysis r =>
    by_cases hv : validAnalysis r = true
    · simp only [processOne, hv, if_true]
      rw [save_fst, isSome_get_applyEnrich, isSome_get_setStatus]
    · simp only [processOne, hv, Bool.false_eq_true, if_false]
      rw [isSome_get_failCurrent, isSome_get_setStatus]
  | stageRaised =>
    simp only [processOne]
    rw [isSome_get_failCurrent, isSome_get_setStatus]

theorem processOne_success_status (sdb : StatDB) (d : DB) (a : ArticleRow)
    {out : StageOutcome} (hs : fullSuccess out)
    (hpres : (get_article_by_id d a.id).isSome = true) :
    statusOf (processOne sdb d a out) a.id = some .PROCESSED := by
  obtain ⟨r, rfl, hv⟩ := hs
  simp only [processOne, hv, if_true, save_fst]
  unfold statusOf
  rw [get_applyEnrich_same, get_setStatus_same]
  cases h : get_article_by_id d a.id with
  | none => rw [h] at hpres; cases hpres
  | some x => rfl

theorem processOne_raised_status (sdb : StatDB) (d : DB) (a : ArticleRow)
    (hpres : (get_article_by_id d a.id).isSome = true) :
    statusOf (processOne sdb d a .stageRaised) a.id = some .FAILED := by
  simp only [processOne]
  unfold failCurrent
  cases h : get_article_by_id (setStatus d a.id .PROCESSING) a.id with
  | none =>
    have hi := isSome_get_setStatus d a.id .PROCESSING a.id
    rw [h, hpres] at hi
    cases hi
  | some r =>
    show statusOf (setStatus (setStatus d a.id .PROCESSING) r.id .FAILED) a.id = some .FAILED
    rw [get_article_by_id_some_id h]
    unfold statusOf
    rw [get_setStatus_same, get_setStatus_same]
    cases h3 : get_article_by_id d a.id with
    | none => rw [h3] at hpres; cases hpres
    | some x => rfl

/-- Processing other work items does not touch this article's committed
status. -/
theorem fold_status_untouched (sdb : StatDB) (out : Nat → StageOutcome) :
    ∀ (l : List ArticleRow) (d : DB) (k : Nat), (∀ x ∈ l, x.id ≠ k) →
    statusOf (l.foldl (fun d x => processOne sdb d x (out x.id)) d) k = statusOf d k := by
  intro l
  induction l with
  | nil => intro d k _; rfl
  | cons x xs ih =>
    intro d k hk
    rw [List.foldl_cons]
    rw [ih _ k (fun y hy => hk y (List.mem_cons_of_mem _ hy))]
    unfold statusOf
    rw [get_processOne_other _ _ _ _ _ (fun he => hk x (List.mem_cons_self _ _) he.symm)]

/-- Status of a work-list article after the whole fold, given how its own
iteration ends. -/
theorem fold_status_of_mem (sdb : StatDB) (out : Nat → StageOutcome) (st : ArticleStatus) :
    ∀ (l : List ArticleRow) (d : DB) (a : ArticleRow),
    (l.map (fun x => x.id)).Nodup → a ∈ l →
    (get_article_by_id d a.id).isSome = true →
    (∀ d' : DB, (get_article_by_id d' a.id).isSome = true →
      statusOf (processOne sdb d' a (out a.id)) a.id = some st) →
    statusOf (l.foldl (fun d x => processOne sdb d x (out x.id)) d) a.id = some st := by
  intro l
  induction l with
  | nil => intro d a _ ha; cases ha
  | cons x xs ih =>
    intro d a hnd ha hpres hstep
    have hnd2 := hnd
    simp only [List.map_cons, List.nodup_cons] at hnd2
    rw [List.foldl_cons]
    rcases List.mem_cons.mp ha with rfl | hxs
    · have hdone := hstep d hpres
      have hnotin : ∀ y ∈ xs, y.id ≠ a.id := by
        intro y hy he
        exact hnd2.1 (by rw [← he]; exact List.mem_map_of_mem _ hy)
      rw [fold_status_untouched sdb out xs _ a.id hnotin]
      exact hdone
    · refine ih _ a hnd2.2 hxs ?_ hstep
      rw [isSome_get_processOne]
      exact hpres

/-! ## Helper lemmas: sorting and the auxiliary image loop -/

theorem mem_insertByDate {a o : ObsOut} : ∀ {l : List ObsOut},
    a ∈ insertByDate o l ↔ a = o ∨ a ∈ l := by
  intro l
  induction l with
  | nil => simp [insertByDate]
  | cons h t ih =>
    unfold insertByDate
    split
    · simp
    · rw [List.mem_cons, ih, List.mem_cons]
      tauto

theorem mem_sortByDate {a : ObsOut} : ∀ {l : List ObsOut}, a ∈ sortByDate l ↔ a ∈ l := by
  intro l
  induction l with
  | nil => simp [sortByDate]
  | cons h t ih =>
    show a ∈ insertByDate h (sortByDate t) ↔ _
    rw [mem_insertByDate, ih, List.mem_cons]

theorem auxFilter_spec (cs : String → Bool) (main : List String) :
    ∀ (cands acc : List String), ∃ extra,
      auxFilter cs main acc cands = acc ++ extra ∧ extra.Sublist cands ∧
      ∀ i ∈ extra, is_valid_content_image i = true := by
  intro cands
  induction cands with
  | nil =>
    intro acc
    refine ⟨[], by simp [auxFilter], List.Sublist.refl _, ?_⟩
    intro i hi
    cases hi
  | cons img rest ih =>
    intro acc
    by_cases hcond : img ≠ "" ∧ img ∉ main ∧
        (pyStartsWith img "http" || pyStartsWith img "https") = true ∧
        is_valid_content_image img = true
    · by_cases hlen : acc.length < 3
      · by_cases hcs : cs img = true
        · obtain ⟨extra, heq, hsub, hval⟩ := ih (acc ++ [img])
          refine ⟨img :: extra, ?_, List.Sublist.cons₂ _ hsub, ?_⟩
          · simp only [auxFilter]
            rw [if_pos hcond, if_pos hlen, if_pos hcs, heq, List.append_assoc]
            rfl
          · intro i hi
            rcases List.mem_cons.mp hi with rfl | hi2
            · exact hcond.2.2.2
            · exact hval i hi2
        · obtain ⟨extra, heq, hsub, hval⟩ := ih acc
          refine ⟨extra, ?_, List.Sublist.cons _ hsub, hval⟩
          simp only [auxFilter]
          rw [if_pos hcond, if_pos hlen, if_neg hcs]
          exact heq
      · obtain ⟨extra, heq, hsub, hval⟩ := ih (acc ++ [img])
        refine ⟨img :: extra, ?_, List.Sublist.cons₂ _ hsub, ?_⟩
        · simp only [auxFilter]
          rw [if_pos hcond, if_neg hlen, heq, List.append_assoc]
          rfl
        · intro i hi
          rcases List.mem_cons.mp hi with rfl | hi2
          · exact hcond.2.2.2
          · exact hval i hi2
    · obtain ⟨extra, heq, hsub, hval⟩ := ih acc
      refine ⟨extra, ?_, List.Sublist.cons _ hsub, hval⟩
      simp only [auxFilter]
      rw [if_neg hcond]
      exact heq

/-! ## Helper lemmas: `create_article` paths -/

theorem create_article_valid_guard {t u c : String} (ht : t ≠ "") (hu : u ≠ "") (hc : c ≠ "") :
    ¬(t = "" ∨ u = "" ∨ c = "") := by
  rintro (h | h | h)
  · exact ht h
  · exact hu h
  · exact hc h

/-- Silent skip on a duplicate url: the state is unchanged and `None` is
returned, whatever `published_at` holds. -/
theorem create_article_dup_skip {pd : String → Option Date} {sz : String → String}
    {db : DB} {t u de p c : String} {imgs : List String}
    (ht : t ≠ "") (hu : u ≠ "") (hc : c ≠ "")
    (hlen : ¬ pyLen (pyStrip c) < 50)
    (hdup : db.articles.any (fun a => a.url == u) = true) :
    create_article pd sz db t u de p c imgs = (db, .ret none) := by
  unfold create_article
  rw [if_neg (create_article_valid_guard ht hu hc), if_neg hlen, if_pos hdup]

/-- The insert path of `create_article`. -/
theorem create_article_insert {pd : String → Option Date} {sz : String → String}
    {db : DB} {t u de p c : String} {imgs : List String} {d : Date}
    (ht : t ≠ "") (hu : u ≠ "") (hc : c ≠ "")
    (hlen : ¬ pyLen (pyStrip c) < 50)
    (hdup : db.articles.any (fun a => a.url == u) = false)
    (hd : pd p = some d)
    (hconf : db.articles.any (fun a => a.url == pyStrip u) = false) :
    create_article pd sz db t u de p c imgs =
      ({ db with
          articles := db.articles ++
            [{ id := freshId db, title := pyStrip t, url := pyStrip u,
               description := sz de, published_at := d, category := none,
               status := .PENDING }]
          contents := db.contents ++ [⟨freshId db, pyStrip c, imgs⟩] },
       .ret (some { id := freshId db, title := pyStrip t, url := pyStrip u,
                    description := sz de, published_at := d, category := none,
                    status := .PENDING })) := by
  unfold create_article
  rw [if_neg (create_article_valid_guard ht hu hc), if_neg hlen,
      if_neg (by simp [hdup]), hd]
  simp only [hconf, Bool.false_eq_true, if_false]

/-! ## The claims -/

/-- C9: `_is_valid_content_image` is a pure predicate on the URL string. The
banner URL is rejected (it contains the advertising substring "banner"/"ad",
and its embedded 300x50 token has a dimension under 150px), while the photo
URL with an 800x600 token is accepted. -/
theorem image_filter_exclusions :
    is_valid_content_image "https://x.com/banner-ad-300x50.png" = false ∧
    is_valid_content_image "https://x.com/news/photo-800x600.jpg" = true ∧
    findSizeMatch (pyLower "https://x.com/banner-ad-300x50.png").data = some (300, 50) ∧
    pyContains (pyLower "https://x.com/banner-ad-300x50.png") "banner" = true := by
  refine ⟨by decide, by decide, by decide, by decide⟩

/-- C6 (code bug): on a fetch/parse exception, `crawl_article_with_newspaper3k`
returns the bare 2-tuple `(None, None)` from its `except` branch, while the
validation failures return the 3-tuple `(None, None, None)` that the declared
return type `tuple[str | None, str | None, list[str] | None]` promises; the
absent shapes are not uniform (and the 3-name unpacking at the call site in
`scripts/pipeline.py` line 31 would raise on the 2-tuple). -/
theorem crawl_exception_returns_bare_pair :
    crawl_article_with_newspaper3k (fun _ => true) .raises = .nonePair ∧
    crawl_article_with_newspaper3k (fun _ => true) (.page "T" "short" "" []) = .noneTriple ∧
    CrawlReturn.nonePair ≠ CrawlReturn.noneTriple := by
  refine ⟨rfl, by decide, by decide⟩

/-- C8 (counterexample): with indicators available, an unexpected internal
error in the LLM call makes `analyze_article_with_llm` return `None` (line
137-139 of `processors.py`: critical log, then `return None`); no exception
reaches the caller. -/
theorem analyze_unexpected_error_counterexample :
    analyze_article_with_llm (fun _ => none) sdbFix .otherError = .ok none ∧
    analyze_article_with_llm (fun _ => none) sdbFix .otherError ≠ .error .validationError ∧
    analyze_article_with_llm (fun _ => none) sdbFix .otherError ≠ .error .databaseError := by
  have h : analyze_article_with_llm (fun _ => none) sdbFix .otherError = .ok none := rfl
  refine ⟨h, ?_, ?_⟩ <;> rw [h] <;> intro hcontra <;> cases hcontra

/-- C8 (amended): when the LLM analysis call fails with an unexpected
internal error, `analyze_article_with_llm` logs it at the highest severity
and converts it to an absent result (`None`), like the other failure
classes; the exception does not propagate to the caller. -/
theorem analyze_unexpected_error_returns_absent
    (jp : String → Option AnalysisResult) (sdb : StatDB) :
    analyze_article_with_llm jp sdb .otherError = .ok none := by
  unfold analyze_article_with_llm
  split
  · rfl
  · rfl

/-- C10: in `create_article` the duplicate-url check runs before
publish-date validation: with non-empty title, url and body and the url
already stored, the call returns absent whatever `published_at` holds (in
particular when it is unparsable), whereas a fresh url with an unparsable
date raises ValidationError. -/
theorem dup_check_precedes_date_validation :
    (∀ (pd : String → Option Date) (sz : String → String) (db : DB)
       (t u de p c : String) (imgs : List String),
      t ≠ "" → u ≠ "" → c ≠ "" →
      db.articles.any (fun a => a.url == u) = true →
      create_article pd sz db t u de p c imgs = (db, .ret none)) ∧
    (∀ (pd : String → Option Date) (sz : String → String) (db : DB)
       (t u de p c : String) (imgs : List String),
      t ≠ "" → u ≠ "" → c ≠ "" →
      50 ≤ pyLen (pyStrip c) →
      db.articles.any (fun a => a.url == u) = false →
      pd p = none →
      create_article pd sz db t u de p c imgs = (db, .raised .validationError)) := by
  constructor
  · intro pd sz db t u de p c imgs ht hu hc hdup
    by_cases hlen : pyLen (pyStrip c) < 50
    · unfold create_article
      rw [if_neg (create_article_valid_guard ht hu hc), if_pos hlen]
    · exact create_article_dup_skip ht hu hc hlen hdup
  · intro pd sz db t u de p c imgs ht hu hc hlen hdup hp
    unfold create_article
    rw [if_neg (create_article_valid_guard ht hu hc), if_neg (by omega),
        if_neg (by simp [hdup]), hp]

/-- Witness for C10: a concrete duplicate url with the unparsable date
"BAD" is skipped silently, while a fresh url with the same date raises. -/
theorem dup_check_precedes_date_validation_witness :
    create_article pdFix szFix dbDup "t2" "u1" "d2" "BAD" bodyFix [] = (dbDup, .ret none) ∧
    create_article pdFix szFix emptyDB "t2" "u2" "d2" "BAD" bodyFix [] =
      (emptyDB, .raised .validationError) :=
  ⟨dup_check_precedes_date_validation.1 pdFix szFix dbDup "t2" "u1" "d2" "BAD" bodyFix []
      (by decide) (by decide) (by decide) (by decide),
   dup_check_precedes_date_validation.2 pdFix szFix emptyDB "t2" "u2" "d2" "BAD" bodyFix []
      (by decide) (by decide) (by decide) (by decide) (by decide) (by decide)⟩

/-- `dbDup` is reachable: one successful ingest from the empty database. -/
theorem dbDup_reachable : Reachable dbDup :=
  Reachable.step Reachable.init
    (Step.ingest pdFix szFix emptyDB "t" "u1" "d" "ok" bodyFix [] dbDup
      (some ⟨1, "t", "u1", "d", ⟨2025, 1, 1⟩, none, .PENDING⟩) (by decide))

/-- C5 (counterexample): the empty body has trimmed length 0 < 50, yet
`create_article` raises ValidationError (the non-empty guard at line 33 runs
before the length check at line 35) instead of returning absent. -/
theorem short_body_counterexample :
    pyLen (pyStrip "") < 50 ∧
    create_article pdFix szFix emptyDB "t" "u" "d" "ok" "" [] =
      (emptyDB, .raised .validationError) := by
  refine ⟨by decide, by decide⟩

/-- C5 (amended): for inputs with non-empty title, url and body whose body
has trimmed length under 50, `create_article` returns absent without raising
and without inserting; consequently no reachable state stores a content row
whose trimmed length is under 50. -/
theorem short_body_silent_reject :
    (∀ (pd : String → Option Date) (sz : String → String) (db : DB)
       (t u de p c : String) (imgs : List String),
      t ≠ "" → u ≠ "" → c ≠ "" → pyLen (pyStrip c) < 50 →
      create_article pd sz db t u de p c imgs = (db, .ret none)) ∧
    (∀ db : DB, Reachable db → ∀ cr ∈ db.contents, 50 ≤ pyLen (pyStrip cr.content)) := by
  constructor
  · intro pd sz db t u de p c imgs ht hu hc hlen
    unfold create_article
    rw [if_neg (create_article_valid_guard ht hu hc), if_pos hlen]
  · intro db h
    exact ContentFloor_reachable h

/-- Witness for C5: a whitespace-only body is silently rejected, and the
reachable `dbDup` meets the content floor. -/
theorem short_body_silent_reject_witness :
    create_article pdFix szFix emptyDB "t" "u" "d" "ok" "   " [] = (emptyDB, .ret none) ∧
    ∀ cr ∈ dbDup.contents, 50 ≤ pyLen (pyStrip cr.content) :=
  ⟨short_body_silent_reject.1 pdFix szFix emptyDB "t" "u" "d" "ok" "   " []
      (by decide) (by decide) (by decide) (by decide),
   short_body_silent_reject.2 dbDup dbDup_reachable⟩

/-- C4 (counterexample): two calls with the identical url "http://a.com "
(trailing space) and otherwise valid inputs: the second call does not detect
the duplicate — the pre-insert check compares the raw url while the insert
stored the stripped url — so it attempts the insert and raises DatabaseError
from the UNIQUE(url) constraint instead of returning absent as a no-op. -/
theorem create_article_idempotency_counterexample :
    (create_article pdFix szFix dbWS "t" urlWS "d" "ok" bodyFix []).2 =
      .raised .databaseError ∧
    (create_article pdFix szFix dbWS "t" urlWS "d" "ok" bodyFix []).2 ≠ .ret none := by
  refine ⟨by decide, by decide⟩

/-- C4 (amended): for every pair of calls with an identical url that equals
its stripped form (no surrounding whitespace) and otherwise valid inputs,
exactly one Article with that url is stored; the second call detects the
existing url before insert and returns absent as a no-op, leaving the
database unchanged. (With surrounding whitespace the second call instead
raises DatabaseError from the UNIQUE constraint, still leaving exactly one
stored Article.) -/
theorem filter_url_append_one (db : DB) (row : ArticleRow) (u : String)
    (contents : List ContentRow)
    (hnil : db.articles.filter (fun a => a.url == u) = [])
    (hrow : (row.url == u) = true) :
    (({ db with articles := db.articles ++ [row], contents := contents } : DB).articles.filter
      (fun a => a.url == u)).length = 1 := by
  show ((db.articles ++ [row]).filter (fun a => a.url == u)).length = 1
  rw [List.filter_append, hnil, List.nil_append, List.filter_cons, if_pos hrow]
  rfl

theorem any_url_append_one (db : DB) (row : ArticleRow) (u : String)
    (contents : List ContentRow)
    (hrow : (row.url == u) = true) :
    ({ db with articles := db.articles ++ [row], contents := contents } : DB).articles.any
      (fun a => a.url == u) = true := by
  show (db.articles ++ [row]).any (fun a => a.url == u) = true
  rw [List.any_append]
  simp [hrow]

/-- C4 (amended): for every pair of calls with an identical url that equals
its stripped form (no surrounding whitespace) and otherwise valid inputs,
exactly one Article with that url is stored after the two calls; the second
call detects the existing url before insert and returns absent as a no-op,
leaving the database unchanged. (With surrounding whitespace in the url the
second call instead raises DatabaseError from the UNIQUE constraint, still
leaving exactly one stored Article — see the counterexample.) -/
theorem create_article_idempotent_url
    (pd : String → Option Date) (sz : String → String) (db : DB)
    (t u de p c t2 de2 p2 c2 : String) (imgs imgs2 : List String)
    (hus : pyStrip u = u)
    (ht : t ≠ "") (hu : u ≠ "") (hc : c ≠ "")
    (hlen : 50 ≤ pyLen (pyStrip c)) (hd : (pd p).isSome = true)
    (ht2 : t2 ≠ "") (hc2 : c2 ≠ "") (hlen2 : 50 ≤ pyLen (pyStrip c2))
    (hcount0 : (db.articles.filter (fun a => a.url == u)).length ≤ 1) :
    ((create_article pd sz db t u de p c imgs).1.articles.filter
        (fun a => a.url == u)).length = 1 ∧
    create_article pd sz (create_article pd sz db t u de p c imgs).1
        t2 u de2 p2 c2 imgs2 =
      ((create_article pd sz db t u de p c imgs).1, .ret none) := by
  have hlen' : ¬ pyLen (pyStrip c) < 50 := by omega
  have hlen2' : ¬ pyLen (pyStrip c2) < 50 := by omega
  obtain ⟨d, hdp⟩ := Option.isSome_iff_exists.mp hd
  by_cases hdup : db.articles.any (fun a => a.url == u) = true
  · -- the url is already stored: the first call is itself a silent skip
    rw [create_article_dup_skip ht hu hc hlen' hdup]
    have hone : (db.articles.filter (fun a => a.url == u)).length = 1 := by
      obtain ⟨a, ha, hau⟩ := List.any_eq_true.mp hdup
      have hmem : a ∈ db.articles.filter (fun a => a.url == u) :=
        List.mem_filter.mpr ⟨ha, hau⟩
      have hpos : 0 < (db.articles.filter (fun a => a.url == u)).length :=
        List.length_pos.mpr (fun hnil => by rw [hnil] at hmem; cases hmem)
      omega
    exact ⟨hone, create_article_dup_skip ht2 hu hc2 hlen2' hdup⟩
  · -- fresh url: the first call inserts, the second detects the duplicate
    have hdup' : db.articles.any (fun a => a.url == u) = false := by
      cases h : db.articles.any (fun a => a.url == u)
      · rfl
      · exact absurd h hdup
    have hconf : db.articles.any (fun a => a.url == pyStrip u) = false := by
      rw [hus]; exact hdup'
    rw [create_article_insert ht hu hc hlen' hdup' hdp hconf]
    have hnil : db.articles.filter (fun a => a.url == u) = [] := by
      rw [List.filter_eq_nil_iff]
      exact List.any_eq_false.mp hdup'
    have hrowu : ((⟨freshId db, pyStrip t, pyStrip u, sz de, d, none,
        .PENDING⟩ : ArticleRow).url == u) = true := by
      show (pyStrip u == u) = true
      rw [hus]
      simp
    exact ⟨filter_url_append_one db _ u _ hnil hrowu,
           create_article_dup_skip ht2 hu hc2 hlen2'
             (any_url_append_one db _ u _ hrowu)⟩

/-- Witness for C4 (amended): two concrete calls with the clean url "u1". -/
theorem create_article_idempotent_url_witness :
    ((create_article pdFix szFix emptyDB "t" "u1" "d" "ok" bodyFix []).1.articles.filter
        (fun a => a.url == "u1")).length = 1 ∧
    create_article pdFix szFix (create_article pdFix szFix emptyDB "t" "u1" "d" "ok" bodyFix []).1
        "t2" "u1" "d2" "ok" bodyFix [] =
      ((create_article pdFix szFix emptyDB "t" "u1" "d" "ok" bodyFix []).1, .ret none) :=
  create_article_idempotent_url pdFix szFix emptyDB "t" "u1" "d" "ok" bodyFix
    "t2" "d2" "ok" bodyFix [] [] (by decide) (by decide) (by decide) (by decide)
    (by decide) (by decide) (by decide) (by decide) (by decide) (by decide)

/-- C3: `get_contextual_statistics_for_article` anchors each indicator's
lookback window at the reference date as window end; the window start is the
reference date minus 3 months when the frequency is D, minus 24 months when
M, minus 5 years when Q, and minus 1 year for any unrecognised or absent
frequency; at reference date 2025-06-15 the window starts are 2025-03-15,
2023-06-15, 2020-06-15 and 2024-06-15 respectively; and each returned
entry's observations are exactly the stored observations of its indicator
inside the inclusive window ending at the reference date. -/
theorem lookback_window_anchoring :
    (∀ d : Date, lookbackStart (some "D") d = subRelMonths d 3 ∧
                 lookbackStart (some "M") d = subRelMonths d 24 ∧
                 lookbackStart (some "Q") d = subRelYears d 5) ∧
    (∀ (f : Option String) (d : Date),
      f ≠ some "D" → f ≠ some "M" → f ≠ some "Q" →
      lookbackStart f d = subRelYears d 1) ∧
    (lookbackStart (some "D") ⟨2025, 6, 15⟩ = ⟨2025, 3, 15⟩ ∧
     lookbackStart (some "M") ⟨2025, 6, 15⟩ = ⟨2023, 6, 15⟩ ∧
     lookbackStart (some "Q") ⟨2025, 6, 15⟩ = ⟨2020, 6, 15⟩ ∧
     lookbackStart none ⟨2025, 6, 15⟩ = ⟨2024, 6, 15⟩ ∧
     lookbackStart (some "W") ⟨2025, 6, 15⟩ = ⟨2024, 6, 15⟩) ∧
    (∀ (sdb : StatDB) (ids : List String) (ref : Date) (e : StatEntry),
      e ∈ get_contextual_statistics_for_article sdb ids ref →
      ∀ o : ObsOut, o ∈ e.observations ↔
        ∃ ob ∈ sdb.observations, ob.indicator_id = e.indicator_id ∧
          o = ⟨ob.date, ob.value⟩ ∧
          inWindow (lookbackStart e.frequency ref) ref ob.date = true) := by
  refine ⟨?_, ?_, by decide, ?_⟩
  · intro d
    exact ⟨rfl, rfl, rfl⟩
  · intro f d h1 h2 h3
    unfold lookbackStart
    rw [if_neg h1, if_neg h2, if_neg h3]
  · intro sdb ids ref e he o
    unfold get_contextual_statistics_for_article at he
    split at he
    · cases he
    · rw [List.mem_filterMap] at he
      obtain ⟨iid, hiid, hsome⟩ := he
      cases hmeta : sdb.indicators.find? (fun i => i.indicator_id == iid) with
      | none => rw [hmeta] at hsome; cases hsome
      | some meta =>
        rw [hmeta] at hsome
        have hmid : meta.indicator_id = iid := by simpa using List.find?_some hmeta
        cases hsome
        show o ∈ sortByDate ((sdb.observations.filter (fun ob =>
            ob.indicator_id == iid &&
            inWindow (lookbackStart meta.frequency ref) ref ob.date)).map
          (fun ob => ⟨ob.date, ob.value⟩)) ↔
          ∃ ob ∈ sdb.observations, ob.indicator_id = meta.indicator_id ∧
            o = ⟨ob.date, ob.value⟩ ∧
            inWindow (lookbackStart meta.frequency ref) ref ob.date = true
        rw [mem_sortByDate]
        constructor
        · intro ho
          obtain ⟨ob, hob, hfo⟩ := List.mem_map.mp ho
          obtain ⟨hmem, hp⟩ := List.mem_filter.mp hob
          rw [Bool.and_eq_true] at hp
          refine ⟨ob, hmem, ?_, hfo.symm, hp.2⟩
          have hoid : ob.indicator_id = iid := by simpa using hp.1
          rw [hoid]
          exact hmid.symm
        · rintro ⟨ob, hmem, hid, rfl, hw⟩
          apply List.mem_map.mpr
          refine ⟨ob, List.mem_filter.mpr ⟨hmem, ?_⟩, rfl⟩
          rw [Bool.and_eq_true]
          refine ⟨?_, hw⟩
          rw [hid, hmid]
          simp

/-- Witness for C3: the default-window case at a concrete unknown frequency,
and a concrete observation of the daily indicator `K1` lying inside the
3-month window ending 2025-06-15. -/
theorem lookback_window_anchoring_witness :
    lookbackStart (some "W") ⟨2025, 6, 15⟩ = subRelYears ⟨2025, 6, 15⟩ 1 ∧
    (⟨⟨2025, 5, 1⟩, 0⟩ : ObsOut) ∈ entryW.observations :=
  ⟨lookback_window_anchoring.2.1 (some "W") ⟨2025, 6, 15⟩
      (by decide) (by decide) (by decide),
   (lookback_window_anchoring.2.2.2 sdbW ["K1"] ⟨2025, 6, 15⟩ entryW
      (by decide) ⟨⟨2025, 5, 1⟩, 0⟩).mpr
     ⟨⟨"K1", ⟨2025, 5, 1⟩, 0⟩, by decide, by decide, rfl, by decide⟩⟩


/-- C7: whenever the crawler succeeds, the returned image list has at most 5
entries; if the page's main image passes the content filter it is the first
element; and the remaining entries are at most 4 auxiliary images, each
passing the content filter, in encounter order (a sublist of the candidate
list). -/
theorem extract_images_capped (cs : String → Bool) (title text top_image : String)
    (cands : List String) (t c : String) (imgs : List String)
    (h : crawl_article_with_newspaper3k cs (.page title text top_image cands) =
      .triple t c imgs) :
    imgs.length ≤ 5 ∧
    ((top_image ≠ "" ∧ is_valid_content_image top_image = true) →
      imgs.head? = some top_image) ∧
    ∃ aux : List String,
      imgs = (if top_image ≠ "" ∧ is_valid_content_image top_image = true
              then [top_image] else []) ++ aux ∧
      aux.length ≤ 4 ∧ (∀ i ∈ aux, is_valid_content_image i = true) ∧
      aux.Sublist cands := by
  simp only [crawl_article_with_newspaper3k] at h
  split at h
  · cases h
  · split at h
    · cases h
    · injection h with h1 h2 h3
      subst h1
      subst h2
      subst h3
      obtain ⟨extra, heq, hsub, hval⟩ := auxFilter_spec cs
        (if top_image ≠ "" ∧ is_valid_content_image top_image = true
         then [top_image] else []) cands []
      rw [List.nil_append] at heq
      rw [heq]
      have hM : (if top_image ≠ "" ∧ is_valid_content_image top_image = true
          then [top_image] else []).length ≤ 1 := by
        split <;> simp
      have htk : (extra.take 4).length ≤ 4 := by
        rw [List.length_take]
        exact min_le_left _ _
      refine ⟨?_, ?_, extra.take 4, rfl, htk, ?_, ?_⟩
      · rw [List.length_append]
        omega
      · intro hcond
        rw [if_pos hcond]
        rfl
      · intro i hi
        exact hval i ((List.take_sublist _ _).subset hi)
      · exact (List.take_sublist _ _).trans hsub

/-- Witness for C7: a concrete successful crawl with a valid main image and
one auxiliary candidate. -/
theorem extract_images_capped_witness :
    (["https://x.com/news/photo-800x600.jpg", "https://x.com/a.jpg"] : List String).length ≤ 5 ∧
    (("https://x.com/news/photo-800x600.jpg" ≠ "" ∧
      is_valid_content_image "https://x.com/news/photo-800x600.jpg" = true) →
      (["https://x.com/news/photo-800x600.jpg", "https://x.com/a.jpg"] : List String).head? =
        some "https://x.com/news/photo-800x600.jpg") ∧
    ∃ aux : List String,
      (["https://x.com/news/photo-800x600.jpg", "https://x.com/a.jpg"] : List String) =
        (if "https://x.com/news/photo-800x600.jpg" ≠ "" ∧
            is_valid_content_image "https://x.com/news/photo-800x600.jpg" = true
         then ["https://x.com/news/photo-800x600.jpg"] else []) ++ aux ∧
      aux.length ≤ 4 ∧ (∀ i ∈ aux, is_valid_content_image i = true) ∧
      aux.Sublist ["https://x.com/a.jpg"] :=
  extract_images_capped (fun _ => true) "T" longBody
    "https://x.com/news/photo-800x600.jpg" ["https://x.com/a.jpg"]
    "T" longBody ["https://x.com/news/photo-800x600.jpg", "https://x.com/a.jpg"]
    (by set_option maxRecDepth 8192 in decide)

/-- C1: in every database state reachable through the pipeline's committed
transactions, an article has status PROCESSED iff exactly one
`enriched_articles` row with its id exists, and FAILED articles have none;
moreover `save_enriched_data_and_cleanup` commits the enrichment insert and
the PROCESSED flip as one unit — one commit yields both, a failed commit
yields neither (rollback) and raises DatabaseError. -/
theorem processed_iff_enriched_invariant :
    (∀ db : DB, Reachable db → StatusInvariant db) ∧
    (∀ (commitOk : Bool) (db : DB) (aid : Nat) (res : AnalysisResult)
       (stats : List StatEntry),
      save_enriched_data_and_cleanup commitOk db aid res stats =
        (applyEnrich db aid res stats, none) ∨
      save_enriched_data_and_cleanup commitOk db aid res stats =
        (db, some .databaseError)) := by
  constructor
  · intro db h
    exact StatusInvariant_of_WF (WF_reachable h)
  · intro ok db aid res stats
    cases ok
    · exact Or.inr rfl
    · exact Or.inl rfl

/-- Witness for C1: the invariant at the concrete reachable state `dbDup`,
and atomicity of a concrete successful save. -/
theorem processed_iff_enriched_invariant_witness :
    StatusInvariant dbDup ∧
    (save_enriched_data_and_cleanup true dbDup 1 resFix [] =
        (applyEnrich dbDup 1 resFix [], none) ∨
     save_enriched_data_and_cleanup true dbDup 1 resFix [] =
        (dbDup, some .databaseError)) :=
  ⟨processed_iff_enriched_invariant.1 dbDup dbDup_reachable,
   processed_iff_enriched_invariant.2 true dbDup 1 resFix []⟩

/-- C2: over one processing run, if article N's stages raise, the committed
transaction state is kept (rollback of the uncommitted work), N is re-fetched
and set to FAILED, and the run continues: any other selected articles whose
own stages fully succeed end the run as PROCESSED. -/
theorem per_article_failure_isolation
    (sdb : StatDB) (db : DB) (out : Nat → StageOutcome)
    (hnd : (db.articles.map (fun a => a.id)).Nodup)
    (n prev next : ArticleRow)
    (hn : n ∈ get_pending_articles db)
    (hp : prev ∈ get_pending_articles db)
    (hq : next ∈ get_pending_articles db)
    (hfail : out n.id = .stageRaised)
    (hps : fullSuccess (out prev.id)) (hqs : fullSuccess (out next.id)) :
    statusOf (runProcessing sdb db out) n.id = some .FAILED ∧
    statusOf (runProcessing sdb db out) prev.id = some .PROCESSED ∧
    statusOf (runProcessing sdb db out) next.id = some .PROCESSED := by
  have hwnd : ((get_pending_articles db).map (fun a => a.id)).Nodup :=
    List.Nodup.sublist (List.Sublist.map _ (List.filter_sublist _)) hnd
  have hpres : ∀ a : ArticleRow, a ∈ get_pending_articles db →
      (get_article_by_id db a.id).isSome = true := by
    intro a ha
    have ham : a ∈ db.articles := List.mem_of_mem_filter ha
    unfold get_article_by_id
    rw [find?_of_mem_nodup hnd ham]
    rfl
  unfold runProcessing
  refine ⟨?_, ?_, ?_⟩
  · refine fold_status_of_mem sdb out .FAILED _ db n hwnd hn (hpres n hn) ?_
    intro d hpd
    rw [hfail]
    exact processOne_raised_status sdb d n hpd
  · refine fold_status_of_mem sdb out .PROCESSED _ db prev hwnd hp (hpres prev hp) ?_
    intro d hpd
    exact processOne_success_status sdb d prev hps hpd
  · refine fold_status_of_mem sdb out .PROCESSED _ db next hwnd hq (hpres next hq) ?_
    intro d hpd
    exact processOne_success_status sdb d next hqs hpd

/-- Witness for C2: the concrete three-article run in which article 2
raises and articles 1 and 3 succeed. -/
theorem per_article_failure_isolation_witness :
    statusOf (runProcessing sdbFix db3 out3) 2 = some .FAILED ∧
    statusOf (runProcessing sdbFix db3 out3) 1 = some .PROCESSED ∧
    statusOf (runProcessing sdbFix db3 out3) 3 = some .PROCESSED :=
  per_article_failure_isolation sdbFix db3 out3 (by decide)
    ⟨2, "t2", "v2", "d", ⟨2025, 1, 1⟩, none, .PENDING⟩
    ⟨1, "t1", "v1", "d", ⟨2025, 1, 1⟩, none, .PENDING⟩
    ⟨3, "t3", "v3", "d", ⟨2025, 1, 1⟩, none, .PENDING⟩
    (by decide) (by decide) (by decide) (by decide)
    ⟨resFix, by decide, by decide⟩ ⟨resFix, by decide, by decide⟩


end FinSight
